import Mathlib

/-!
Shallow embedding of the core of `FlashcardApp_V3.py` (a flashcard catalog
with double-sided print layout) together with proofs about its claimed
behaviour.  The embedding models:

* the `flashcards` SQLite table as a `List Card` kept in storage (rowid)
  order — ids are assigned by SQLite monotonically, so the table list is
  assumed strictly increasing in `id` where a claim needs the order;
* each SQL statement of the program as an explicit list transformation;
* the paint loop of `render_document` as a pure function from the expanded
  card list and the layout parameters to a list of front/back page pairs,
  where each drawn cell is an explicit record of its paint instructions.
-/

namespace Flashcards

/-- A row of the `flashcards` table, as created by `init_db`:
`id, lesson, front, back, selected, copies, printed_count, last_printed`. -/
structure Card where
  id : Nat
  lesson : String
  front : String
  back : String
  selected : Bool
  copies : Nat
  printedCount : Nat
  lastPrinted : Option String
  deriving Repr, DecidableEq

/-- One physical copy to print, as appended by `print_selected`:
the `(lesson, front, back)` tuple. -/
abbrev RenderCard := String × String × String

/-- All fields of a row except the `selected` flag, used to state that an
operation touches nothing but selection. -/
def cardData (c : Card) : Nat × String × String × String × Nat × Nat × Option String :=
  (c.id, c.lesson, c.front, c.back, c.copies, c.printedCount, c.lastPrinted)

/-- First statement of `select_all_unprinted`:
`UPDATE flashcards SET selected=0`. -/
def clearSelections (db : List Card) : List Card :=
  db.map fun c => { c with selected := false }

/-- Second statement of `select_all_unprinted`:
`UPDATE flashcards SET selected=1 WHERE printed_count=0`. -/
def selectWhereUnprinted (db : List Card) : List Card :=
  db.map fun c => if c.printedCount = 0 then { c with selected := true } else c

/-- `select_all_unprinted`: the two UPDATE statements run in order. -/
def select_all_unprinted (db : List Card) : List Card :=
  selectWhereUnprinted (clearSelections db)

/-- The id set captured at print start: `print_selected` reads
`SELECT * FROM flashcards WHERE selected=1` before rendering, so the ids it
renders are the ids selected at that moment. -/
def capturedPrintIds (db : List Card) : List Nat :=
  (db.filter fun c => c.selected).map (·.id)

/-- The print-completion statement of `print_selected`:
`UPDATE flashcards SET printed_count = printed_count + copies,
last_printed = ? WHERE selected = 1` — note that it re-reads the *current*
`selected` flags of the table it is applied to. -/
def markPrintedCode (db : List Card) (now : String) : List Card :=
  db.map fun c =>
    if c.selected then
      { c with printedCount := c.printedCount + c.copies, lastPrinted := some now }
    else c

/-- Code-point lexicographic comparison of character lists.  SQLite compares
TEXT values under the default BINARY collation — a memcmp of the UTF-8
bytes — and UTF-8 byte order coincides with code-point lexicographic order,
so this is the order every `ORDER BY lesson` in the program sorts by. -/
def charsLtb : List Char → List Char → Bool
  | [], [] => false
  | [], _ :: _ => true
  | _ :: _, [] => false
  | a :: as, b :: bs =>
    if a < b then true
    else if b < a then false
    else charsLtb as bs

/-- Strict BINARY-collation comparison of two TEXT values. -/
def textLtb (a b : String) : Bool := charsLtb a.data b.data

/-- Non-strict BINARY-collation comparison of two TEXT values. -/
def textLeb (a b : String) : Bool := !textLtb b a

/-- Stable insertion of `x` into `l`: `x` goes in front of the first element
it `le`-precedes, and in particular in front of elements with an equal key.
Together with `sortBy` below this models a SQLite `ORDER BY` answered from a
single-column b-tree index: index entries are ordered by (key, rowid), so
rows with equal keys are served in rowid order — i.e. the scan is a stable
sort of the rowid-ordered table. -/
def insertBy (le : Card → Card → Bool) (x : Card) : List Card → List Card
  | [] => [x]
  | y :: ys => if le x y then x :: y :: ys else y :: insertBy le x ys

/-- Stable insertion sort by `le` (see `insertBy`). -/
def sortBy (le : Card → Card → Bool) : List Card → List Card
  | [] => []
  | x :: xs => insertBy le x (sortBy le xs)

/-- The card query of `print_selected`:
`SELECT * FROM flashcards WHERE selected=1 ORDER BY lesson`. -/
def printQuery (db : List Card) : List Card :=
  sortBy (fun a b => textLeb a.lesson b.lesson) (db.filter fun c => c.selected)

/-- The expansion loop of `print_selected`:
`for _ in range(copies): cards.append((lesson, front, back))`. -/
def expandCopies (l : List Card) : List RenderCard :=
  l.flatMap fun c => List.replicate c.copies (c.lesson, c.front, c.back)

/-- The `cards` list that `print_selected` hands to rendering. -/
def cards_to_print (db : List Card) : List RenderCard :=
  expandCopies (printQuery db)

/-- Catalog order: `lesson` ascending (BINARY collation), ties broken by
`id` ascending. -/
def catalogLT (a b : Card) : Prop :=
  textLtb a.lesson b.lesson = true ∨ (a.lesson = b.lesson ∧ a.id < b.id)

/-- The store effect of `print_selected` from button press to completion:
the empty-selection guard, the two settings validations, the modal preview
(`accepted` is its outcome; a rejected preview returns before any UPDATE),
and finally the completion UPDATE. -/
def print_selected_store (db : List Card) (cpp fontSize : Int)
    (accepted : Bool) (now : String) : List Card :=
  if cards_to_print db = [] then db
  else if cpp < 1 || 12 < cpp then db
  else if fontSize < 6 || 120 < fontSize then db
  else if !accepted then db
  else markPrintedCode db now

/-- C1 scenario, state at print start: card 1 selected, card 2 not. -/
def dbPrintStart : List Card :=
  [ { id := 1, lesson := "L", front := "f1", back := "b1", selected := true,
      copies := 1, printedCount := 0, lastPrinted := none },
    { id := 2, lesson := "L", front := "f2", back := "b2", selected := false,
      copies := 3, printedCount := 0, lastPrinted := none } ]

/-- C1 scenario, state at print completion: the selection changed while the
preview was open — card 1 was deselected and card 2 selected. -/
def dbPrintDone : List Card :=
  [ { id := 1, lesson := "L", front := "f1", back := "b1", selected := false,
      copies := 1, printedCount := 0, lastPrinted := none },
    { id := 2, lesson := "L", front := "f2", back := "b2", selected := true,
      copies := 3, printedCount := 0, lastPrinted := none } ]

/-- The paint instructions `render_document` emits for one drawn front-page
cell: the cosmetic border rectangle in the configured pen, the lesson label
(fixed 16pt) and the front text at the configured font size.  `pos` is the
0-indexed position `i` of the card within its chunk; `row = i // 2`,
`col = i % 2`, `x = col * card_w`, `y = row * card_h`. -/
structure FrontCell where
  pos : Nat
  row : Nat
  col : Nat
  x : Rat
  y : Rat
  w : Rat
  h : Rat
  penColor : String
  penWidth : Int
  lesson : String
  front : String
  fontSize : Int
  deriving Repr, DecidableEq

/-- The paint instructions for one drawn back-page cell: only the back text
(no border, no lesson label), at `row = i // 2`, `col = 1 - i % 2`. -/
structure BackCell where
  pos : Nat
  row : Nat
  col : Nat
  x : Rat
  y : Rat
  w : Rat
  h : Rat
  back : String
  fontSize : Int
  deriving Repr, DecidableEq

/-- One front page followed by its back page. -/
structure PagePair where
  front : List FrontCell
  back : List BackCell
  deriving Repr, DecidableEq

/-- The front-page loop of `render_document` for one chunk:
`for i in range(cpp): if index + i >= len(cards): break; ...` — i.e. cells
are emitted exactly for positions `0 .. chunk.length - 1`. -/
def mkFrontPage (chunk : List RenderCard) (cardW cardH : Rat)
    (penColor : String) (penWidth fontSize : Int) : List FrontCell :=
  (List.range chunk.length).map fun i =>
    { pos := i, row := i / 2, col := i % 2,
      x := ((i % 2 : Nat) : Rat) * cardW, y := ((i / 2 : Nat) : Rat) * cardH,
      w := cardW, h := cardH,
      penColor := penColor, penWidth := penWidth,
      lesson := (chunk.getD i ("", "", "")).1,
      front := (chunk.getD i ("", "", "")).2.1,
      fontSize := fontSize }

/-- The back-page loop of `render_document` for the same chunk, with the
column mirrored: `c = 1 - (i % 2)`. -/
def mkBackPage (chunk : List RenderCard) (cardW cardH : Rat)
    (fontSize : Int) : List BackCell :=
  (List.range chunk.length).map fun i =>
    { pos := i, row := i / 2, col := 1 - i % 2,
      x := ((1 - i % 2 : Nat) : Rat) * cardW, y := ((i / 2 : Nat) : Rat) * cardH,
      w := cardW, h := cardH,
      back := (chunk.getD i ("", "", "")).2.2,
      fontSize := fontSize }

/-- The chunking walked by `while index < len(cards): ... index += cpp`:
the k-th iteration paints the slice `cards[index : index + n]` with
`index = k * n`, and for `n ≥ 1` the loop runs `⌈len(cards) / n⌉` times. -/
def chunksOf {α : Type} (n : Nat) (l : List α) : List (List α) :=
  (List.range ((l.length + n - 1) / n)).map fun k => (l.drop (k * n)).take n

/-- The paint loop of `render_document` as a pure function: grid geometry
`rows = cpp // 2`, `card_w = pageW / 2`, `card_h = pageH / rows`, then one
front/back page pair per chunk.  When `rows = 0` (i.e. `cpp = 1`) the
Python code raises `ZeroDivisionError` at `card_h = page_rect.height() /
rows`, before painting anything; that failure is modelled as `none` (in
Lean, `Rat` division by zero would silently yield 0, so the guard is
explicit). -/
def layout (cards : List RenderCard) (cpp : Nat) (pageW pageH : Rat)
    (penColor : String) (penWidth fontSize : Int) : Option (List PagePair) :=
  let rows := cpp / 2
  if rows = 0 then none
  else
    let cardW := pageW / 2
    let cardH := pageH / (rows : Rat)
    some ((chunksOf cpp cards).map fun chunk =>
      { front := mkFrontPage chunk cardW cardH penColor penWidth fontSize,
        back := mkBackPage chunk cardW cardH fontSize })

/-- Device page size of `render_document`: US Letter (8.5 × 11 in) at
`dpi`, with the page dimensions swapped in landscape orientation:
`int(8.5 * dpi)` by `int(11.0 * dpi)` pixels. -/
def pageSizePx (dpi : Nat) (landscape : Bool) : Nat × Nat :=
  if landscape then (11 * dpi, 17 * dpi / 2) else (17 * dpi / 2, 11 * dpi)

/-- Outcome of one press of the Print Selected button, up to rendering. -/
inductive PrintResult where
  | nothingToPrint : PrintResult
  | invalidCardsPerPage : PrintResult
  | invalidFontSize : PrintResult
  | renderError : PrintResult
  | rendered : List PagePair → PrintResult
  deriving Repr, DecidableEq

/-- `print_selected` up to rendering: the empty-selection guard, then the
two settings validations (`cards_per_page ∈ [1,12]`,
`font_size ∈ [6,120]`), then the paint loop.  `pen_color` and `pen_width`
are read inside `render_document` and handed to the painter with no
validation of any kind. -/
def print_selected_render (db : List Card) (cpp fontSize penWidth : Int)
    (penColor : String) (dpi : Nat) (landscape : Bool) : PrintResult :=
  let cards := cards_to_print db
  if cards = [] then .nothingToPrint
  else if cpp < 1 || 12 < cpp then .invalidCardsPerPage
  else if fontSize < 6 || 120 < fontSize then .invalidFontSize
  else
    let (w, h) := pageSizePx dpi landscape
    match layout cards cpp.toNat (w : Rat) (h : Rat) penColor penWidth fontSize with
    | none => .renderError
    | some ps => .rendered ps

/-- Number of rendered front/back page pairs in a print outcome. -/
def renderedPageCount : PrintResult → Nat
  | .rendered ps => ps.length
  | _ => 0

/-- Whether a print outcome is a settings-validation rejection. -/
def isConfigRejected : PrintResult → Bool
  | .invalidCardsPerPage => true
  | .invalidFontSize => true
  | _ => false

/-- A catalog holding a single selected card. -/
def dbOneCard : List Card :=
  [ ⟨1, "L1", "Hola", "Hello", true, 1, 0, none⟩ ]

/-- A small concrete catalog: ids ascending, lessons out of order, one
unselected row, one row with two copies. -/
def dbCatalog : List Card :=
  [ ⟨1, "B", "f1", "b1", true, 2, 0, none⟩,
    ⟨2, "A", "f2", "b2", true, 1, 0, none⟩,
    ⟨3, "A", "f3", "b3", false, 1, 0, none⟩,
    ⟨4, "A", "f4", "b4", true, 1, 0, none⟩ ]

/-- Python `str.strip()` as applied to the search box text in `load_data`:
leading and trailing whitespace removed. -/
def pyStrip (s : String) : String :=
  ⟨((s.data.dropWhile Char.isWhitespace).reverse.dropWhile
      Char.isWhitespace).reverse⟩

/-- SQLite `LIKE` matching, as used by
`WHERE lesson LIKE ? OR front LIKE ? OR back LIKE ?`: `%` matches any
character sequence, `_` matches exactly one character, and ordinary
characters compare case-insensitively for ASCII letters (SQLite's default
`LIKE` behaviour). -/
def likeMatch : List Char → List Char → Bool
  | [], t => t.isEmpty
  | '%' :: p, t => t.tails.any fun suffix => likeMatch p suffix
  | '_' :: _, [] => false
  | '_' :: p, _ :: t => likeMatch p t
  | _ :: _, [] => false
  | a :: p, c :: t => (a.toLower == c.toLower) && likeMatch p t

/-- `load_data`'s LIKE parameter for one field:
`filter_param` wraps the stripped search text in a pair of `%`. -/
def fieldLike (filterText field : String) : Bool :=
  likeMatch ('%' :: (filterText.data ++ ['%'])) field.data

/-- The comparator of `ORDER BY lesson, id` (BINARY collation on the
lesson, rowid tie-break). -/
def catalogLeb (a b : Card) : Bool :=
  textLtb a.lesson b.lesson || (a.lesson == b.lesson && decide (a.id ≤ b.id))

/-- The query of `load_data`: the stripped search text, when non-empty,
selects by LIKE over lesson, front and back regardless of the
selected-only mode; otherwise the selected-only mode selects
`WHERE selected = 1`; otherwise every row; each branch
`ORDER BY lesson, id`. -/
def load_data (db : List Card) (searchText : String) (filterSelected : Bool) :
    List Card :=
  let ft := pyStrip searchText
  if ft ≠ "" then
    sortBy catalogLeb (db.filter fun c =>
      fieldLike ft c.lesson || fieldLike ft c.front || fieldLike ft c.back)
  else if filterSelected then
    sortBy catalogLeb (db.filter fun c => c.selected)
  else
    sortBy catalogLeb db

/-- Modelled from the spec's words (for comparison with the code's LIKE
matching): `needle` occurs in `haystack` as a contiguous substring, with a
configurable character comparison. -/
def prefixEqBy (eq : Char → Char → Bool) : List Char → List Char → Bool
  | [], _ => true
  | _ :: _, [] => false
  | a :: as, b :: bs => eq a b && prefixEqBy eq as bs

/-- Modelled from the spec's words: substring containment, see
`prefixEqBy`. -/
def containsSubBy (eq : Char → Char → Bool) (n : List Char) : List Char → Bool
  | [] => prefixEqBy eq n []
  | c :: t => prefixEqBy eq n (c :: t) || containsSubBy eq n t

/-- Modelled from the spec's words: case-sensitive substring containment. -/
def specContainsSub (needle haystack : String) : Bool :=
  containsSubBy (fun a b => a == b) needle.data haystack.data

/-- Modelled from the spec's words: ASCII-case-insensitive substring
containment. -/
def specContainsSubCI (needle haystack : String) : Bool :=
  containsSubBy (fun a b => a.toLower == b.toLower) needle.data haystack.data

/-- One card whose front is "abc" — the LIKE wildcard scenario. -/
def dbWild : List Card := [⟨1, "", "abc", "", false, 1, 0, none⟩]

/-- State of the single-shot `filter_timer` together with the query commits
performed so far: `deadline` is the pending timeout instant (`start(300)`
sets it to now + 300, `stop()` clears it), `text` the current search text,
and each commit records the instant and the text it queried with. -/
structure DebounceState where
  deadline : Option Nat
  text : String
  commits : List (Nat × String)
  deriving Repr, DecidableEq

/-- Deliver a due timeout at or before time `t`: a pending single-shot with
deadline `d ≤ t` fires — `on_search_changed` stops the timer and commits a
`load_data` query with the text in the search box at that instant. -/
def fireDue (st : DebounceState) (t : Nat) : DebounceState :=
  match st.deadline with
  | some d =>
    if d ≤ t then
      { deadline := none, text := st.text, commits := st.commits ++ [(d, st.text)] }
    else st
  | none => st

/-- `debounced_filter` at time `t` with new text `s`: the cooperative event
loop has delivered any due timeout first; then `filter_timer.stop()`
plus `filter_timer.start(300)` replace the pending deadline with
`t + 300`. -/
def textChanged (st : DebounceState) (t : Nat) (s : String) : DebounceState :=
  let fired := fireDue st t
  { deadline := some (t + 300), text := s, commits := fired.commits }

/-- Run a chronological trace of text-change events. -/
def runChanges : DebounceState → List (Nat × String) → DebounceState
  | st, [] => st
  | st, (t, s) :: rest => runChanges (textChanged st t s) rest

/-- Let time run out after the last event: a still-pending single-shot
fires exactly once; the result is the full commit history. -/
def settle (st : DebounceState) : List (Nat × String) :=
  match st.deadline with
  | some d => st.commits ++ [(d, st.text)]
  | none => st.commits

/-- The idle state: no pending timer, no commits. -/
def idleState (init : String) : DebounceState := ⟨none, init, []⟩

/-- Three render cards, and below the pages the paint loop produces for
them at two cards per sheet — concrete data for the layout theorems. -/
def wCards : List RenderCard :=
  [("L1", "f1", "b1"), ("L2", "f2", "b2"), ("L3", "f3", "b3")]

/-- The two front/back page pairs `layout` paints for `wCards`. -/
def wPages : List PagePair := (layout wCards 2 850 1100 "#000000" 2 60).getD []

/-- The first page pair of `wPages`. -/
def wPage0 : PagePair := wPages.get ⟨0, by decide⟩

/-- The second back cell of the first page pair of `wPages`. -/
def wBack1 : BackCell := wPage0.back.get ⟨1, by decide⟩

/-- The pages rendered in the out-of-range pen-width scenario: pen width 99
with every other setting valid. -/
def penWidth99Pages : List PagePair :=
  match print_selected_render dbCatalog 6 60 99 "#000000" 300 false with
  | .rendered ps => ps
  | _ => []

end Flashcards

namespace Flashcards

lemma charsLtb_trans {a : List Char} : ∀ {b c : List Char},
    charsLtb a b = true → charsLtb b c = true → charsLtb a c = true := by
  induction a with
  | nil =>
    intro b c hab hbc
    cases b with
    | nil => simp [charsLtb] at hab
    | cons b bs =>
      cases c with
      | nil => simp [charsLtb] at hbc
      | cons c cs => simp [charsLtb]
  | cons a as ih =>
    intro b c hab hbc
    cases b with
    | nil => simp [charsLtb] at hab
    | cons b bs =>
      cases c with
      | nil => simp [charsLtb] at hbc
      | cons c cs =>
        simp only [charsLtb] at hab hbc ⊢
        by_cases h1 : a < b
        · by_cases h2 : b < c
          · simp [h1.trans h2]
          · by_cases h3 : c < b
            · simp [h2, h3] at hbc
            · have hbc' : b = c := le_antisymm (not_lt.mp h3) (not_lt.mp h2)
              subst hbc'
              simp [h1]
        · by_cases h1' : b < a
          · simp [h1, h1'] at hab
          · have hab' : a = b := le_antisymm (not_lt.mp h1') (not_lt.mp h1)
            subst hab'
            simp only [h1, if_false] at hab
            by_cases h2 : a < c
            · simp [h2]
            · by_cases h3 : c < a
              · simp [h2, h3] at hbc
              · have hac : a = c := le_antisymm (not_lt.mp h3) (not_lt.mp h2)
                subst hac
                simp only [lt_irrefl, if_false] at hbc ⊢
                exact ih hab hbc

lemma charsLtb_not_lt {a : List Char} : ∀ {b : List Char},
    charsLtb a b = false → charsLtb b a = true ∨ b = a := by
  induction a with
  | nil =>
    intro b hab
    cases b with
    | nil => exact Or.inr rfl
    | cons b bs => simp [charsLtb] at hab
  | cons a as ih =>
    intro b hab
    cases b with
    | nil => exact Or.inl rfl
    | cons b bs =>
      simp only [charsLtb] at hab ⊢
      by_cases h1 : a < b
      · simp [h1] at hab
      · by_cases h2 : b < a
        · simp [h2]
        · have hab' : a = b := le_antisymm (not_lt.mp h2) (not_lt.mp h1)
          subst hab'
          simp only [h1, lt_irrefl, if_false] at hab ⊢
          rcases ih hab with h | h
          · exact Or.inl h
          · exact Or.inr (by rw [h])

lemma textLtb_trans {a b c : String} :
    textLtb a b = true → textLtb b c = true → textLtb a c = true :=
  charsLtb_trans

lemma textLtb_not_lt {a b : String} (h : textLtb a b = false) :
    textLtb b a = true ∨ b = a := by
  rcases charsLtb_not_lt h with h' | h'
  · exact Or.inl h'
  · exact Or.inr (String.ext h')

lemma insertBy_perm (le : Card → Card → Bool) (x : Card) (l : List Card) :
    (insertBy le x l).Perm (x :: l) := by
  induction l with
  | nil => simp [insertBy]
  | cons y ys ih =>
    rw [insertBy]
    cases hle : le x y with
    | true => simp
    | false =>
      simp only [Bool.false_eq_true, if_false]
      exact (ih.cons y).trans (List.Perm.swap x y ys)

lemma sortBy_perm (le : Card → Card → Bool) (l : List Card) :
    (sortBy le l).Perm l := by
  induction l with
  | nil => simp [sortBy]
  | cons x xs ih => exact (insertBy_perm le x (sortBy le xs)).trans (ih.cons x)

lemma mem_insertBy {le : Card → Card → Bool} {x z : Card} {l : List Card} :
    z ∈ insertBy le x l ↔ z = x ∨ z ∈ l := by
  rw [(insertBy_perm le x l).mem_iff, List.mem_cons]

lemma pairwise_insertBy {le : Card → Card → Bool} {R Q : Card → Card → Prop}
    (h1 : ∀ x z, Q x z → le x z = true → R x z)
    (h2 : ∀ x z, le x z = false → R z x)
    (h3 : ∀ x y z, le x y = true → R y z → Q x z → R x z)
    {x : Card} {l : List Card} (hQ : ∀ z ∈ l, Q x z) (hp : l.Pairwise R) :
    (insertBy le x l).Pairwise R := by
  induction l with
  | nil => simp [insertBy]
  | cons y ys ih =>
    rcases List.pairwise_cons.mp hp with ⟨hy, hys⟩
    rw [insertBy]
    cases hle : le x y with
    | true =>
      simp only [if_true]
      refine List.pairwise_cons.mpr ⟨?_, hp⟩
      intro z hz
      rcases List.mem_cons.mp hz with rfl | hz
      · exact h1 x z (hQ z (List.mem_cons_self _ _)) hle
      · exact h3 x y z hle (hy z hz) (hQ z (List.mem_cons_of_mem _ hz))
    | false =>
      simp only [Bool.false_eq_true, if_false]
      refine List.pairwise_cons.mpr ⟨?_, ?_⟩
      · intro z hz
        rcases mem_insertBy.mp hz with rfl | hz
        · exact h2 z y hle
        · exact hy z hz
      · exact ih (fun z hz => hQ z (List.mem_cons_of_mem _ hz)) hys

lemma pairwise_sortBy {le : Card → Card → Bool} {R Q : Card → Card → Prop}
    (h1 : ∀ x z, Q x z → le x z = true → R x z)
    (h2 : ∀ x z, le x z = false → R z x)
    (h3 : ∀ x y z, le x y = true → R y z → Q x z → R x z)
    {l : List Card} (hQ : l.Pairwise Q) :
    (sortBy le l).Pairwise R := by
  induction l with
  | nil => simp [sortBy]
  | cons x xs ih =>
    rcases List.pairwise_cons.mp hQ with ⟨hx, hxs⟩
    rw [sortBy]
    refine pairwise_insertBy h1 h2 h3 ?_ (ih hxs)
    intro z hz
    exact hx z ((sortBy_perm le xs).mem_iff.mp hz)

/-- The two UPDATE statements of `select_all_unprinted` compose to a single
per-row map that sets `selected` iff `printed_count = 0`. -/
lemma select_all_unprinted_eq_map (db : List Card) :
    select_all_unprinted db
      = db.map fun c => { c with selected := decide (c.printedCount = 0) } := by
  unfold select_all_unprinted clearSelections selectWhereUnprinted
  rw [List.map_map]
  apply List.map_congr_left
  intro c _
  by_cases h : c.printedCount = 0 <;> simp [Function.comp, h]

/-- C5: After `select_all_unprinted`, the selected-id set equals exactly
the ids whose `printedCount` is zero, independent of prior selection state,
and every other field of every row is unchanged. -/
theorem select_all_unprinted_spec (db : List Card) :
    ((select_all_unprinted db).filter (fun c => c.selected)).map (·.id)
        = (db.filter (fun c => c.printedCount == 0)).map (·.id)
      ∧ (select_all_unprinted db).map cardData = db.map cardData := by
  rw [select_all_unprinted_eq_map]
  constructor
  · induction db with
    | nil => simp
    | cons c cs ih =>
      by_cases h : c.printedCount = 0 <;> simp [List.filter_cons, h, ih]
  · rw [List.map_map]
    apply List.map_congr_left
    intro c _
    rfl

/-- C3: the RenderCard list handed to the layout step is the selected cards
in catalog order (lesson ascending, ties broken by id ascending), with each
card of `copies = k` expanded into `k` consecutive RenderCard instances in
that order. -/
theorem cards_to_print_catalog_order (db : List Card)
    (hid : db.Pairwise fun a b => a.id < b.id) :
    ∃ L : List Card,
      L.Perm (db.filter fun c => c.selected)
        ∧ L.Pairwise catalogLT
        ∧ cards_to_print db = expandCopies L := by
  refine ⟨printQuery db, sortBy_perm _ _, ?_, rfl⟩
  apply pairwise_sortBy (Q := fun a b => a.id < b.id) ?h1 ?h2 ?h3 (hid.filter _)
  case h1 =>
    intro x z hq hle
    simp only [textLeb, Bool.not_eq_true'] at hle
    rcases textLtb_not_lt hle with h | h
    · exact Or.inl h
    · exact Or.inr ⟨h, hq⟩
  case h2 =>
    intro x z hle
    simp only [textLeb, Bool.not_eq_false'] at hle
    exact Or.inl hle
  case h3 =>
    intro x y z hxy hyz hq
    simp only [textLeb, Bool.not_eq_true'] at hxy
    rcases textLtb_not_lt hxy with hxy' | hxy'
    · rcases hyz with h | ⟨h, _⟩
      · exact Or.inl (textLtb_trans hxy' h)
      · exact Or.inl (h ▸ hxy')
    · rcases hyz with h | ⟨h, _⟩
      · exact Or.inl (hxy' ▸ h)
      · exact Or.inr ⟨hxy' ▸ h, hq⟩

/-- Witness for C3 at the concrete catalog `dbCatalog`. -/
theorem cards_to_print_catalog_order_witness :
    ∃ L : List Card,
      L.Perm (dbCatalog.filter fun c => c.selected)
        ∧ L.Pairwise catalogLT
        ∧ cards_to_print dbCatalog = expandCopies L :=
  cards_to_print_catalog_order dbCatalog (by decide)

/-- C1: the completion UPDATE evaluated at the failing scenario.  At print
start only card 1 is selected, so the id set sent to the renderer is `[1]`;
at completion the selection has changed (card 1 off, card 2 on).  The
statement `UPDATE ... WHERE selected = 1` then leaves card 1 — the card
that was printed — untouched, and increments card 2, which was never sent
to the renderer. -/
theorem markPrinted_uses_fresh_selection :
    capturedPrintIds dbPrintStart = [1]
      ∧ (markPrintedCode dbPrintDone "2026-10-12 09:00:00").map
          (fun c => (c.id, c.printedCount, c.lastPrinted))
        = [(1, 0, none), (2, 3, some "2026-10-12 09:00:00")] :=
  ⟨rfl, rfl⟩

/-- C10: if the print preview dialog is not accepted, `print_selected`
returns before the completion UPDATE and every card is exactly as before;
the completion UPDATE can only run when the preview is accepted. -/
theorem preview_rejection_leaves_store_unchanged
    (db : List Card) (cpp fontSize : Int) (now : String) :
    print_selected_store db cpp fontSize false now = db
      ∧ ∀ accepted : Bool,
          print_selected_store db cpp fontSize accepted now = db
            ∨ (accepted = true
                ∧ print_selected_store db cpp fontSize accepted now
                    = markPrintedCode db now) := by
  constructor
  · unfold print_selected_store
    split_ifs <;> simp_all
  · intro accepted
    cases accepted with
    | false =>
      left
      unfold print_selected_store
      split_ifs <;> simp_all
    | true =>
      unfold print_selected_store
      split_ifs with h1 h2 h3 h4
      · exact Or.inl rfl
      · exact Or.inl rfl
      · exact Or.inl rfl
      · simp at h4
      · exact Or.inr ⟨rfl, rfl⟩

/-- `layout`, when it succeeds, paints one front/back page pair per chunk
with cell sizes fixed by the grid geometry. -/
lemma layout_eq_some {cards : List RenderCard} {cpp : Nat}
    {pageW pageH : Rat} {penColor : String} {penWidth fontSize : Int}
    {pages : List PagePair}
    (h : layout cards cpp pageW pageH penColor penWidth fontSize = some pages) :
    pages = (chunksOf cpp cards).map fun chunk =>
      { front := mkFrontPage chunk (pageW / 2) (pageH / ((cpp / 2 : Nat) : Rat))
          penColor penWidth fontSize,
        back := mkBackPage chunk (pageW / 2) (pageH / ((cpp / 2 : Nat) : Rat))
          fontSize } := by
  simp only [layout] at h
  split at h
  · exact absurd h (by simp)
  · exact (Option.some.inj h).symm

lemma map_proj_range {β : Type} (n : Nat) (f : Nat → β) (proj : β → Nat)
    (hpf : ∀ i, proj (f i) = i) :
    List.map proj (List.map f (List.range n)) = List.range n := by
  rw [List.map_map]
  have h : proj ∘ f = id := funext hpf
  rw [h, List.map_id]

lemma mkFrontPage_map_pos (chunk : List RenderCard) (cardW cardH : Rat)
    (penColor : String) (penWidth fontSize : Int) :
    (mkFrontPage chunk cardW cardH penColor penWidth fontSize).map (·.pos)
      = List.range chunk.length := by
  unfold mkFrontPage
  exact map_proj_range _ _ _ fun i => rfl

lemma mkBackPage_map_pos (chunk : List RenderCard) (cardW cardH : Rat)
    (fontSize : Int) :
    (mkBackPage chunk cardW cardH fontSize).map (·.pos)
      = List.range chunk.length := by
  unfold mkBackPage
  exact map_proj_range _ _ _ fun i => rfl

lemma chunksOf_get {α : Type} (n : Nat) (l : List α) (k : Nat)
    (hk : k < (chunksOf n l).length) :
    (chunksOf n l).get ⟨k, hk⟩ = (l.drop (k * n)).take n := by
  simp [chunksOf]

/-- C4: every emitted back-page cell at chunk position `i` sits in column
`1 - (i % 2)` and row `i / 2`, and the front page of the same pair has a
cell at the same position `i` with the same row and the mirrored column
`i % 2`. -/
theorem back_page_mirrors_front (cards : List RenderCard) (cpp : Nat)
    (pageW pageH : Rat) (penColor : String) (penWidth fontSize : Int)
    (pages : List PagePair)
    (h : layout cards cpp pageW pageH penColor penWidth fontSize = some pages) :
    ∀ pp ∈ pages, ∀ b ∈ pp.back,
      b.col = 1 - b.pos % 2 ∧ b.row = b.pos / 2
        ∧ ∃ f ∈ pp.front, f.pos = b.pos ∧ f.row = b.row ∧ f.col = b.pos % 2 := by
  have hp := layout_eq_some h
  subst hp
  intro pp hpp b hb
  rcases List.mem_map.mp hpp with ⟨chunk, _, rfl⟩
  rcases List.mem_map.mp hb with ⟨i, hi, rfl⟩
  rw [List.mem_range] at hi
  exact ⟨rfl, rfl, _, List.mem_map.mpr ⟨i, List.mem_range.mpr hi, rfl⟩, rfl, rfl, rfl⟩

/-- Witness for C4 at the second cell of the first back page of the
concrete three-card, two-per-sheet layout. -/
theorem back_page_mirrors_front_witness :
    wBack1.col = 1 - wBack1.pos % 2 ∧ wBack1.row = wBack1.pos / 2
      ∧ ∃ f ∈ wPage0.front, f.pos = wBack1.pos ∧ f.row = wBack1.row
          ∧ f.col = wBack1.pos % 2 :=
  back_page_mirrors_front wCards 2 850 1100 "#000000" 2 60 wPages rfl
    wPage0 (List.get_mem wPages 0 (by decide))
    wBack1 (List.get_mem wPage0.back 1 (by decide))

/-- C7: on the page pair for chunk `k` the paint instructions — front and
back — are emitted exactly for positions `0 .. m - 1`, where
`m = min cpp (cards.length - k * cpp)` is the number of cards that chunk
holds; the remaining `cpp - m` grid cells of a short chunk receive no
instruction at all. -/
theorem short_chunk_cells_blank (cards : List RenderCard) (cpp : Nat)
    (pageW pageH : Rat) (penColor : String) (penWidth fontSize : Int)
    (pages : List PagePair)
    (h : layout cards cpp pageW pageH penColor penWidth fontSize = some pages) :
    ∀ k (hk : k < pages.length),
      (pages.get ⟨k, hk⟩).front.map (·.pos)
          = List.range (min cpp (cards.length - k * cpp))
        ∧ (pages.get ⟨k, hk⟩).back.map (·.pos)
          = List.range (min cpp (cards.length - k * cpp))
        ∧ min cpp (cards.length - k * cpp) ≤ cpp := by
  have hp := layout_eq_some h
  subst hp
  intro k hk
  have hk' : k < (chunksOf cpp cards).length := by
    simpa using hk
  have hget :
      ((chunksOf cpp cards).map fun chunk =>
          ({ front := mkFrontPage chunk (pageW / 2) (pageH / ((cpp / 2 : Nat) : Rat))
               penColor penWidth fontSize,
             back := mkBackPage chunk (pageW / 2) (pageH / ((cpp / 2 : Nat) : Rat))
               fontSize } : PagePair)).get ⟨k, hk⟩
        = { front := mkFrontPage ((cards.drop (k * cpp)).take cpp) (pageW / 2)
              (pageH / ((cpp / 2 : Nat) : Rat)) penColor penWidth fontSize,
            back := mkBackPage ((cards.drop (k * cpp)).take cpp) (pageW / 2)
              (pageH / ((cpp / 2 : Nat) : Rat)) fontSize } := by
    rw [List.get_map, chunksOf_get]
  rw [hget]
  have hlen : ((cards.drop (k * cpp)).take cpp).length
      = min cpp (cards.length - k * cpp) := by
    simp
  exact ⟨by rw [mkFrontPage_map_pos, hlen], by rw [mkBackPage_map_pos, hlen],
    Nat.min_le_left _ _⟩

/-- Witness for C7 at the second (short) page pair of the concrete
three-card, two-per-sheet layout: it holds one card, so only position 0 is
drawn. -/
theorem short_chunk_cells_blank_witness :
    (wPages.get ⟨1, by decide⟩).front.map (·.pos)
        = List.range (min 2 (wCards.length - 1 * 2))
      ∧ (wPages.get ⟨1, by decide⟩).back.map (·.pos)
          = List.range (min 2 (wCards.length - 1 * 2))
      ∧ min 2 (wCards.length - 1 * 2) ≤ 2 :=
  short_chunk_cells_blank wCards 2 850 1100 "#000000" 2 60 wPages rfl 1 (by decide)

/-- C2 fails at `cardsPerSheet = 1`, a value the settings dialog and the
print-path validation both accept: the grid computes
`rows = 1 // 2 = 0` and then `card_h = page_height / rows` raises
`ZeroDivisionError` before any page is painted, so the layout produces no
front/back pair at all instead of the required `⌈M / 1⌉ = M` pairs. -/
theorem layout_crashes_at_one_card_per_sheet :
    layout [("L1", "Hola", "Hello")] 1 2550 3300 "#000000" 2 60 = none
      ∧ print_selected_render dbOneCard 1 60 2 "#000000" 300 false
          = .renderError :=
  ⟨rfl, rfl⟩

/-- C8 counterexample: pen width 99 — far outside [1, 10] — reaches the
print path with every other setting valid, is rejected nowhere, and a full
page of paint instructions is emitted whose borders carry pen width 99:
the out-of-range value is neither failed nor clamped. -/
theorem penWidth_out_of_range_not_rejected :
    print_selected_render dbCatalog 6 60 99 "#000000" 300 false
        = .rendered penWidth99Pages
      ∧ penWidth99Pages.length = 1
      ∧ ∀ pp ∈ penWidth99Pages, ∀ f ∈ pp.front, f.penWidth = 99 :=
  ⟨rfl, by decide, by decide⟩

/-- C8 amended: an out-of-range `cards_per_page` or `font_size` reaching
the print path (with a non-empty selection) is rejected with a settings
error and no page paint instructions are emitted. -/
theorem settings_out_of_range_rejected (db : List Card)
    (cpp fontSize penWidth : Int) (penColor : String) (dpi : Nat)
    (landscape : Bool) (hne : cards_to_print db ≠ [])
    (hbad : cpp < 1 ∨ 12 < cpp ∨ fontSize < 6 ∨ 120 < fontSize) :
    isConfigRejected
        (print_selected_render db cpp fontSize penWidth penColor dpi landscape)
          = true
      ∧ renderedPageCount
          (print_selected_render db cpp fontSize penWidth penColor dpi landscape)
          = 0 := by
  simp only [print_selected_render]
  rw [if_neg hne]
  split_ifs with h1 h2
  · exact ⟨rfl, rfl⟩
  · exact ⟨rfl, rfl⟩
  · exfalso
    simp only [Bool.or_eq_true, decide_eq_true_eq, not_or] at h1 h2
    rcases hbad with h | h | h | h <;> omega

/-- Witness for the amended C8 at `cards_per_page = 0`. -/
theorem settings_out_of_range_rejected_witness :
    isConfigRejected
        (print_selected_render dbCatalog 0 60 2 "#000000" 300 false) = true
      ∧ renderedPageCount
          (print_selected_render dbCatalog 0 60 2 "#000000" 300 false) = 0 :=
  settings_out_of_range_rejected dbCatalog 0 60 2 "#000000" 300 false
    (by decide) (Or.inl (by norm_num))


lemma catalogLeb_true_lt {x z : Card} (hq : x.id < z.id)
    (h : catalogLeb x z = true) : catalogLT x z := by
  simp only [catalogLeb, Bool.or_eq_true, Bool.and_eq_true, beq_iff_eq] at h
  rcases h with h | ⟨he, _⟩
  · exact Or.inl h
  · exact Or.inr ⟨he, hq⟩

lemma catalogLeb_false_lt {x z : Card} (h : catalogLeb x z = false) :
    catalogLT z x := by
  simp only [catalogLeb, Bool.or_eq_false_iff, Bool.and_eq_false_iff] at h
  obtain ⟨h1, h2⟩ := h
  rcases textLtb_not_lt h1 with hlt | heq
  · exact Or.inl hlt
  · rcases h2 with h2 | h2
    · exact absurd (beq_iff_eq.mpr heq.symm) (by simp [h2])
    · exact Or.inr ⟨heq, Nat.lt_of_not_le (of_decide_eq_false h2)⟩

lemma catalogLeb_trans_lt {x y z : Card} (hxy : catalogLeb x y = true)
    (hyz : catalogLT y z) (hq : x.id < z.id) : catalogLT x z := by
  simp only [catalogLeb, Bool.or_eq_true, Bool.and_eq_true, beq_iff_eq] at hxy
  rcases hxy with h | ⟨he, _⟩
  · rcases hyz with h2 | ⟨h2, _⟩
    · exact Or.inl (textLtb_trans h h2)
    · exact Or.inl (h2 ▸ h)
  · rcases hyz with h2 | ⟨h2, _⟩
    · exact Or.inl (he.symm ▸ h2)
    · exact Or.inr ⟨he.trans h2, hq⟩

lemma sortBy_catalog_sorted {l : List Card}
    (h : l.Pairwise fun a b => a.id < b.id) :
    (sortBy catalogLeb l).Pairwise catalogLT :=
  @pairwise_sortBy catalogLeb catalogLT (fun a b => a.id < b.id)
    (fun _ _ hq hle => catalogLeb_true_lt hq hle)
    (fun _ _ hle => catalogLeb_false_lt hle)
    (fun _ _ _ hxy hyz hq => catalogLeb_trans_lt hxy hyz hq) l h

lemma mem_sortBy {le : Card → Card → Bool} {x : Card} {l : List Card} :
    x ∈ sortBy le l ↔ x ∈ l := (sortBy_perm le l).mem_iff

/-- C6 amended: if the stripped filter text is non-empty the query returns
exactly the cards one of whose lesson, front or back fields matches the
filter text as an ASCII-case-insensitive SQL LIKE substring pattern — so
`%` and `_` in the filter act as wildcards — ignoring the selected-only
flag; if the stripped filter text is empty and selected-only is set it
returns exactly the cards with `selected = 1`; otherwise all cards; in
every case ordered by lesson ascending (BINARY collation) with ties broken
by id ascending. -/
theorem load_data_query_semantics (db : List Card) (searchText : String)
    (filterSelected : Bool) (hid : db.Pairwise fun a b => a.id < b.id) :
    (load_data db searchText filterSelected).Pairwise catalogLT
      ∧ (pyStrip searchText ≠ "" →
          ∀ c, c ∈ load_data db searchText filterSelected ↔
            c ∈ db ∧ (fieldLike (pyStrip searchText) c.lesson
              || fieldLike (pyStrip searchText) c.front
              || fieldLike (pyStrip searchText) c.back) = true)
      ∧ (pyStrip searchText = "" → filterSelected = true →
          ∀ c, c ∈ load_data db searchText filterSelected ↔
            c ∈ db ∧ c.selected = true)
      ∧ (pyStrip searchText = "" → filterSelected = false →
          ∀ c, c ∈ load_data db searchText filterSelected ↔ c ∈ db) := by
  by_cases hft : pyStrip searchText = ""
  case neg =>
    have hld : load_data db searchText filterSelected
        = sortBy catalogLeb (db.filter fun c =>
            fieldLike (pyStrip searchText) c.lesson
              || fieldLike (pyStrip searchText) c.front
              || fieldLike (pyStrip searchText) c.back) := by
      simp only [load_data]
      rw [if_pos hft]
    refine ⟨?_, ?_, ?_, ?_⟩
    · rw [hld]
      exact sortBy_catalog_sorted (hid.filter _)
    · intro _ c
      rw [hld, mem_sortBy, List.mem_filter]
    · intro h
      exact absurd h hft
    · intro h
      exact absurd h hft
  case pos =>
    cases filterSelected with
    | true =>
      have hld : load_data db searchText true
          = sortBy catalogLeb (db.filter fun c => c.selected) := by
        simp only [load_data]
        rw [if_neg (by simp [hft])]
        exact if_pos trivial
      refine ⟨?_, ?_, ?_, ?_⟩
      · rw [hld]
        exact sortBy_catalog_sorted (hid.filter _)
      · intro h
        exact absurd hft h
      · intro _ _ c
        rw [hld, mem_sortBy, List.mem_filter]
      · intro _ h
        exact absurd h (by simp)
    | false =>
      have hld : load_data db searchText false = sortBy catalogLeb db := by
        simp only [load_data]
        rw [if_neg (by simp [hft])]
        rfl
      refine ⟨?_, ?_, ?_, ?_⟩
      · rw [hld]
        exact sortBy_catalog_sorted hid
      · intro h
        exact absurd hft h
      · intro _ h
        exact absurd h (by simp)
      · intro _ _ c
        rw [hld, mem_sortBy]

/-- Witness for the amended C6: search text "f" over the concrete catalog. -/
theorem load_data_query_semantics_witness :
    (load_data dbCatalog "f" false).Pairwise catalogLT
      ∧ (pyStrip "f" ≠ "" →
          ∀ c, c ∈ load_data dbCatalog "f" false ↔
            c ∈ dbCatalog ∧ (fieldLike (pyStrip "f") c.lesson
              || fieldLike (pyStrip "f") c.front
              || fieldLike (pyStrip "f") c.back) = true)
      ∧ (pyStrip "f" = "" → false = true →
          ∀ c, c ∈ load_data dbCatalog "f" false ↔
            c ∈ dbCatalog ∧ c.selected = true)
      ∧ (pyStrip "f" = "" → false = false →
          ∀ c, c ∈ load_data dbCatalog "f" false ↔ c ∈ dbCatalog) :=
  load_data_query_semantics dbCatalog "f" false (by decide)

/-- C6 counterexample: with filter text "a_c" the code's query returns the
card whose front is "abc" — the `_` acts as a LIKE wildcard — although
"a_c" is not contained as a substring in any of that card's fields
(lesson "", front "abc", back "") under either a case-sensitive or a
case-insensitive policy, so the claimed substring semantics returns no
card at all. -/
theorem like_wildcard_beats_substring :
    load_data dbWild "a_c" false = dbWild
      ∧ specContainsSub "a_c" "" = false
      ∧ specContainsSub "a_c" "abc" = false
      ∧ specContainsSubCI "a_c" "" = false
      ∧ specContainsSubCI "a_c" "abc" = false := by
  decide

lemma runChanges_no_fire (rest : List (Nat × String)) :
    ∀ (t : Nat) (s : String) (c0 : List (Nat × String)),
      List.Chain (fun a b => a.1 < b.1 ∧ b.1 < a.1 + 300) (t, s) rest →
      runChanges ⟨some (t + 300), s, c0⟩ rest
        = ⟨some ((rest.getLastD (t, s)).1 + 300), (rest.getLastD (t, s)).2, c0⟩ := by
  induction rest with
  | nil =>
    intro t s c0 _
    rfl
  | cons p rest ih =>
    intro t s c0 hch
    obtain ⟨t1, s1⟩ := p
    rcases List.chain_cons.mp hch with ⟨⟨_, hwin⟩, hch1⟩
    have hstep : textChanged ⟨some (t + 300), s, c0⟩ t1 s1
        = ⟨some (t1 + 300), s1, c0⟩ := by
      simp [textChanged, fireDue, Nat.not_le.mpr hwin]
    rw [runChanges, hstep, ih t1 s1 c0 hch1, List.getLastD_cons]

/-- C9: a non-empty burst of filter-text changes, each arriving strictly
within 300 time units of the previous one, commits exactly one query: at
300 units after the last change, with the last text value.  Each change in
the burst cancels the pending single-shot and restarts it at its own time
plus 300. -/
theorem debounce_commits_once (t0 : Nat) (s0 : String)
    (rest : List (Nat × String)) (init : String)
    (hch : List.Chain (fun a b => a.1 < b.1 ∧ b.1 < a.1 + 300) (t0, s0) rest) :
    settle (runChanges (idleState init) ((t0, s0) :: rest))
      = [((rest.getLastD (t0, s0)).1 + 300, (rest.getLastD (t0, s0)).2)] := by
  have h0 : textChanged (idleState init) t0 s0 = ⟨some (t0 + 300), s0, []⟩ := rfl
  rw [runChanges, h0, runChanges_no_fire rest t0 s0 [] hch]
  rfl

/-- Witness for C9: three rapid changes "a", "ab", "abc" at times 0, 100,
250 commit exactly one query, at time 550, with text "abc". -/
theorem debounce_commits_once_witness :
    settle (runChanges (idleState "") [(0, "a"), (100, "ab"), (250, "abc")])
      = [(550, "abc")] := by
  have h := debounce_commits_once 0 "a" [(100, "ab"), (250, "abc")] ""
    (by norm_num [List.chain_cons])
  simpa using h

end Flashcards
